import Mathlib

set_option maxRecDepth 10000

/-!
Shallow embedding of the Carla engine core (`src/source/backend/engine/carla_engine.cpp`)
and proofs about its event ports, plugin table, rack processor, option surface and
naming service.

Machine integers that never overflow on the modelled paths are `Nat`; the one place
where unsigned wrap-around is observable (`kData->curPluginCount--`) uses an explicit
`% 2^32`.  C++ `double` audio/control values are modelled as `ℚ`: the modelled code
only stores, copies and compares them, so no floating-point rounding is involved.
-/

namespace Carla

/-- `ProcessMode` enum (order as listed in the spec §3:
`SingleClient, MultipleClients, ContinuousRack, Patchbay, Bridge`;
the enum header is not part of the sources, the order is taken from the spec). -/
inductive ProcessMode where
  | singleClient
  | multipleClients
  | continuousRack
  | patchbay
  | bridge
deriving DecidableEq, Repr

/-- `EngineType` (`kEngineTypeNull/Jack/RtAudio/Plugin`). -/
inductive EngineType where
  | null
  | jack
  | rtAudio
  | plugin
deriving DecidableEq, Repr

/-- `BinaryType` used by `CarlaEngine::addPlugin` to choose a bridge binary. -/
inductive BinaryType where
  | none
  | posix32
  | posix64
  | win32
  | win64
  | native
deriving DecidableEq, Repr

/-- `PluginType` dispatched to the plugin-format constructors. -/
inductive PluginType where
  | none
  | internal
  | ladspa
  | dssi
  | lv2
  | vst
  | gig
  | sf2
  | sfz
deriving DecidableEq, Repr

/-- `EngineEvent::type` tag (`kEngineEventTypeNull/Control/Midi`). -/
inductive EngineEventType where
  | null
  | control
  | midi
deriving DecidableEq, Repr

/-- `EngineControlEventType` (`kEngineControlEventTypeNull/Parameter/MidiBank/...`). -/
inductive EngineControlEventType where
  | ctrlNull
  | parameter
  | midiBank
  | midiProgram
  | allSoundOff
  | allNotesOff
deriving DecidableEq, Repr

/-- `EngineControlEvent { type, param : u16, value : double }`. -/
structure EngineControlEvent where
  type : EngineControlEventType
  param : Nat
  value : ℚ
deriving DecidableEq, Repr

/-- `EngineMidiEvent { port, data[3], size }`. -/
structure EngineMidiEvent where
  port : Nat
  data0 : Nat
  data1 : Nat
  data2 : Nat
  size : Nat
deriving DecidableEq, Repr

/-- `EngineEvent { type, time : u32, channel : u8, ctrl, midi }`.
The C++ union of the `ctrl`/`midi` arms is modelled as a product; the code reads
only the arm matching `type`. -/
structure EngineEvent where
  type : EngineEventType
  time : Nat
  channel : Nat
  ctrl : EngineControlEvent
  midi : EngineMidiEvent
deriving DecidableEq, Repr

/-- `static const EngineEvent kFallbackEngineEvent;` — the default-constructed
process-wide `Null` sentinel (carla_engine.cpp:77). -/
def kFallbackEngineEvent : EngineEvent :=
  ⟨.null, 0, 0, ⟨.ctrlNull, 0, 0⟩, ⟨0, 0, 0, 0, 0⟩⟩

/-- Modelled from the spec: `STR_MAX` lives in a utility header that is not under
the sources; its concrete value is immaterial to every claim below. -/
def STR_MAX : Nat := 255

/-- `CarlaEngine::maxClientNameSize() const { return STR_MAX/2; }` (carla_engine.cpp:490). -/
def maxClientNameSize : Nat := STR_MAX / 2

/-- Modelled from the spec: `RACK_EVENT_COUNT` is declared in the engine header,
which is not under the sources; §4.1 bounds the capacity by 512. -/
def RACK_EVENT_COUNT : Nat := 512

/-- Modelled from the spec: `PATCHBAY_EVENT_COUNT`, capacity of a patchbay event
buffer (spec §8 scenario 3 uses 512). -/
def PATCHBAY_EVENT_COUNT : Nat := 512

/-- Modelled from the spec: `MAX_MIDI_CHANNELS = 16` (`channel < 16` precondition). -/
def MAX_MIDI_CHANNELS : Nat := 16

/-- Modelled from the spec: `MAX_RACK_PLUGINS` slot cap for rack mode. -/
def MAX_RACK_PLUGINS : Nat := 16

/-- Modelled from the spec: `MAX_PATCHBAY_PLUGINS` slot cap for patchbay mode. -/
def MAX_PATCHBAY_PLUGINS : Nat := 255

/-- Modelled from the spec: `MAX_DEFAULT_PLUGINS` slot cap for the other modes. -/
def MAX_DEFAULT_PLUGINS : Nat := 99

/-- `CarlaEngineEventPort` — `kIsInput` and `kProcessMode` are set at construction;
`fBuffer` is the (possibly absent) event array.  Every buffer the program actually
attaches has exactly `kMaxEventCount` entries (patchbay ports allocate
`PATCHBAY_EVENT_COUNT` events in the constructor, rack ports borrow the engine's
`RACK_EVENT_COUNT` array). -/
structure CarlaEngineEventPort where
  kIsInput : Bool
  kProcessMode : ProcessMode
  fBuffer : Option (List EngineEvent)
deriving DecidableEq, Repr

/-- `kMaxEventCount(processMode == PROCESS_MODE_CONTINUOUS_RACK ? RACK_EVENT_COUNT : PATCHBAY_EVENT_COUNT)`
(carla_engine.cpp:81). -/
def kMaxEventCount (p : CarlaEngineEventPort) : Nat :=
  if p.kProcessMode = .continuousRack then RACK_EVENT_COUNT else PATCHBAY_EVENT_COUNT

/-- The scan loop of `CarlaEngineEventPort::getEventCount` (carla_engine.cpp:131-137):
`for (i=0; i < kMaxEventCount; i++, count++) if (events[i].type == Null) break; return count;`.
The first argument is the remaining loop bound.  The `[]` case is unreachable for
the program's buffers, whose length equals the loop bound. -/
def getEventCountLoop : Nat → List EngineEvent → Nat
  | 0, _ => 0
  | _ + 1, [] => 0
  | bound + 1, e :: rest =>
    if e.type = EngineEventType.null then 0 else getEventCountLoop bound rest + 1

/-- `CarlaEngineEventPort::getEventCount()` (carla_engine.cpp:116-141). -/
def getEventCount (p : CarlaEngineEventPort) : Nat :=
  if ¬ p.kIsInput then 0
  else
    match p.fBuffer with
    | none => 0
    | some events =>
      if p.kProcessMode = .continuousRack ∨ p.kProcessMode = .patchbay then
        getEventCountLoop (kMaxEventCount p) events
      else 0

/-- `CarlaEngineEventPort::getEvent(index)` (carla_engine.cpp:143-164).
`events[index]` is modelled with `List.getD`; the default is never reached because
the program's buffers have exactly `kMaxEventCount` entries. -/
def getEvent (p : CarlaEngineEventPort) (index : Nat) : EngineEvent :=
  if ¬ p.kIsInput then kFallbackEngineEvent
  else
    match p.fBuffer with
    | none => kFallbackEngineEvent
    | some events =>
      if kMaxEventCount p ≤ index then kFallbackEngineEvent
      else
        if p.kProcessMode = .continuousRack ∨ p.kProcessMode = .patchbay then
          events.getD index kFallbackEngineEvent
        else kFallbackEngineEvent

/-- The write loop of `CarlaEngineEventPort::writeControlEvent`
(carla_engine.cpp:191-205): scan for the first `Null` slot within the
`kMaxEventCount` loop bound and assign `type/time/channel/ctrl` of that slot
(the other fields of the slot are left as they were); if no `Null` slot is found
the buffer is left unchanged (drop with a warning). -/
def writeControlLoop (bound : Nat) (events : List EngineEvent) (time channel : Nat)
    (ctype : EngineControlEventType) (param : Nat) (value : ℚ) : List EngineEvent :=
  match bound, events with
  | 0, es => es
  | _ + 1, [] => []
  | bound + 1, e :: rest =>
    if e.type ≠ EngineEventType.null then
      e :: writeControlLoop bound rest time channel ctype param value
    else
      { e with type := .control, time := time, channel := channel,
               ctrl := ⟨ctype, param, value⟩ } :: rest

/-- `CarlaEngineEventPort::writeControlEvent(time, channel, type, param, value)`
(carla_engine.cpp:166-209).  Note that `value ∈ [0,1]` and the bank-select check
on `param` appear only inside `CARLA_ASSERT` (no early `return`), unlike the
input/buffer/type/channel guards which each have an explicit `return`. -/
def writeControlEvent (p : CarlaEngineEventPort) (time channel : Nat)
    (ctype : EngineControlEventType) (param : Nat) (value : ℚ) : CarlaEngineEventPort :=
  if p.kIsInput then p
  else
    match p.fBuffer with
    | none => p
    | some events =>
      if ctype = .ctrlNull then p
      else if MAX_MIDI_CHANNELS ≤ channel then p
      else if p.kProcessMode = .continuousRack ∨ p.kProcessMode = .patchbay then
        let written := writeControlLoop (kMaxEventCount p) events time channel ctype param value
        { p with fBuffer := some written }
      else p

/-- The `CarlaPlugin` contract (the plugin classes live outside these sources).
Modelled from the spec §3: a plugin exposes `id()/set_id`, `name()`, `enabled()`,
channel counts; `uid` is an artificial immutable identity used to state that
compaction moves *the same* plugin. -/
structure CarlaPlugin where
  uid : Nat
  pid : Nat
  name : String
  enabled : Bool
  audioInCount : Nat
  midiOutCount : Nat
deriving DecidableEq, Repr

/-- `EnginePluginData { CarlaPlugin* plugin; float insPeak[2]; float outsPeak[2]; }`.
The peak floats are only ever stored and zeroed on the modelled paths, so `ℚ`
pairs are a faithful carrier. -/
structure EnginePluginData where
  plugin : Option CarlaPlugin
  insPeak : ℚ × ℚ
  outsPeak : ℚ × ℚ
deriving DecidableEq, Repr

/-- A default (empty) plugin slot, as produced by `new EnginePluginData[n]`. -/
def emptySlot : EnginePluginData := ⟨none, (0, 0), (0, 0)⟩

/-- The subset of `CarlaEngineOptions` read by the modelled code paths.  Bridge
binary paths are strings; `isNotEmpty()` is `≠ ""`. -/
structure EngineOptions where
  processMode : ProcessMode
  preferPluginBridges : Bool
  bridge_native : String
  bridge_posix32 : String
  bridge_posix64 : String
  bridge_win32 : String
  bridge_win64 : String
deriving DecidableEq, Repr

/-- The engine state read/written by the modelled control-thread operations:
`fOptions`, the virtual `type()` result, `isRunning()`, and
`CarlaEngineProtectedData`'s plugin table (`plugins`, `curPluginCount`,
`maxPluginNumber`) and `lastError`. -/
structure CarlaEngine where
  options : EngineOptions
  engineType : EngineType
  running : Bool
  plugins : List EnginePluginData
  curPluginCount : Nat
  maxPluginNumber : Nat
  lastError : String
deriving DecidableEq, Repr

/-- `CarlaEngine::init` (carla_engine.cpp:513-561): resets the counters and
allocates `maxPluginNumber` empty slots according to the process mode. -/
def initEngine (opts : EngineOptions) (etype : EngineType) : CarlaEngine :=
  let maxN :=
    match opts.processMode with
    | .continuousRack => MAX_RACK_PLUGINS
    | .patchbay => MAX_PATCHBAY_PLUGINS
    | .bridge => 1
    | _ => MAX_DEFAULT_PLUGINS
  { options := opts, engineType := etype, running := true,
    plugins := List.replicate maxN emptySlot,
    curPluginCount := 0, maxPluginNumber := maxN, lastError := "" }

/-- `bridgeBinary` selection in `CarlaEngine::addPlugin` (carla_engine.cpp:645-669):
a `switch` on the binary type over the configured bridge paths, then the
non-Windows override for `BINARY_NATIVE`. -/
def bridgeBinaryFor (opts : EngineOptions) (btype : BinaryType) : Option String :=
  let fromSwitch : Option String :=
    match btype with
    | .posix32 => if opts.bridge_posix32 ≠ "" then some opts.bridge_posix32 else none
    | .posix64 => if opts.bridge_posix64 ≠ "" then some opts.bridge_posix64 else none
    | .win32 => if opts.bridge_win32 ≠ "" then some opts.bridge_win32 else none
    | .win64 => if opts.bridge_win64 ≠ "" then some opts.bridge_win64 else none
    | _ => none
  if btype = .native ∧ opts.bridge_native ≠ "" then some opts.bridge_native else fromSwitch

/-- `CarlaEngine::addPlugin` (carla_engine.cpp:618-751).
The plugin-format constructors live outside these sources; modelled from the
spec §4.4: a constructor either fails (`ctorOk = false`, result `nullptr`) or
yields a plugin carrying the `Initializer`'s id (`= curPluginCount`).
`PLUGIN_NONE` has no constructor case, so it leaves `plugin = nullptr`.
Faithfulness note: in the two bridge-policy rejection branches the C++
`bool` function executes `return -1;`, and the integer `-1` converts to the
boolean `true`; the model returns `true` there, exactly as compiled. -/
def addPlugin (e : CarlaEngine) (btype : BinaryType) (ptype : PluginType)
    (ctorOk : Bool) (uid : Nat) (pluginName : String) (enabled : Bool) :
    Bool × CarlaEngine :=
  if e.curPluginCount = e.maxPluginNumber then
    (false, { e with lastError := "Maximum number of plugins reached" })
  else
    let id := e.curPluginCount
    let bridgeBinary := bridgeBinaryFor e.options btype
    if e.options.preferPluginBridges ∧ bridgeBinary ≠ none then
      if e.options.processMode ≠ .multipleClients then
        -- `return -1;` in a `bool` function: converts to `true`.
        (true, { e with lastError := "Can only use bridged plugins in JACK Multi-Client mode" })
      else if e.engineType ≠ .jack then
        -- `return -1;` in a `bool` function: converts to `true`.
        (true, { e with lastError := "Can only use bridged plugins with JACK backend" })
      else
        -- `CarlaPlugin::newBridge` is `#if 0`; plugin stays null and the final
        -- `plugin == nullptr` check returns false.
        (false, { e with lastError := "Bridged plugins are not implemented yet" })
    else
      let plugin : Option CarlaPlugin :=
        if ptype = PluginType.none then none
        else if ctorOk then some ⟨uid, id, pluginName, enabled, 0, 0⟩ else none
      match plugin with
      | none => (false, e)
      | some plugin =>
        (true,
          { e with
            plugins := e.plugins.set id ⟨some plugin, (0, 0), (0, 0)⟩,
            curPluginCount := e.curPluginCount + 1 })

/-- The shift loop of `doPluginRemove` (carla_engine.cpp:378-394):
`for (i = id; i < curPluginCount; i++)` moves `plugins[i+1]` into `plugins[i]`,
calls `setId(i)` on the moved plugin and zeroes the slot's peaks, breaking if the
slot to move is unexpectedly null.  The first argument is the number of remaining
iterations (`curPluginCount - i`). -/
def doPluginRemoveLoop (ps : List EnginePluginData) (i : Nat) :
    Nat → List EnginePluginData
  | 0 => ps
  | fuel + 1 =>
    match (ps.getD (i + 1) emptySlot).plugin with
    | none => ps
    | some plugin =>
      doPluginRemoveLoop (ps.set i ⟨some { plugin with pid := i }, (0, 0), (0, 0)⟩)
        (i + 1) fuel

/-- `doPluginRemove` (carla_engine.cpp:365-400): decrement the 32-bit unsigned
`curPluginCount`, null out slot `pluginId`, then shift the following slots down. -/
def doPluginRemove (e : CarlaEngine) (pluginId : Nat) : CarlaEngine :=
  let cnt := (e.curPluginCount + (2 ^ 32 - 1)) % 2 ^ 32
  let ps := e.plugins.set pluginId { e.plugins.getD pluginId emptySlot with plugin := none }
  { e with curPluginCount := cnt, plugins := doPluginRemoveLoop ps pluginId (cnt - pluginId) }

/-- `CarlaEngine::removePlugin` (carla_engine.cpp:753-812), restricted to its
table effect: when slot `id` holds no plugin the call fails with `lastError` set;
otherwise the post-action machinery executes `doPluginRemove` (synchronously or
at the next block boundary) and the call succeeds.  Thread stop/start, OSC
notification and the C++ `delete` have no table effect and are not modelled. -/
def removePlugin (e : CarlaEngine) (pluginId : Nat) : Bool × CarlaEngine :=
  match (e.plugins.getD pluginId emptySlot).plugin with
  | none => (false, { e with lastError := "Could not find plugin to remove" })
  | some _ => (true, doPluginRemove e pluginId)

/-- A control-thread structural operation on the plugin table. -/
inductive EngineOp where
  | add (btype : BinaryType) (ptype : PluginType) (ctorOk : Bool)
      (uid : Nat) (pluginName : String) (enabled : Bool)
  | remove (pluginId : Nat)
deriving DecidableEq, Repr

/-- Apply one operation through the public API. -/
def applyOp (e : CarlaEngine) : EngineOp → CarlaEngine
  | .add btype ptype ctorOk uid pluginName enabled =>
    (addPlugin e btype ptype ctorOk uid pluginName enabled).2
  | .remove pluginId => (removePlugin e pluginId).2

/-- Run a sequence of operations. -/
def runOps (e : CarlaEngine) : List EngineOp → CarlaEngine
  | [] => e
  | op :: rest => runOps (applyOp e op) rest

/-- A sequence respects the API preconditions when every `remove` targets a live
id (`CARLA_ASSERT(id < kData->curPluginCount)` in `removePlugin`,
carla_engine.cpp:757). -/
def validOps (e : CarlaEngine) : List EngineOp → Bool
  | [] => true
  | op :: rest =>
    (match op with
     | .remove pluginId => decide (pluginId < e.curPluginCount)
     | .add _ _ _ _ _ _ => true) && validOps (applyOp e op) rest

/-- Slot `i` of a slot array holds a plugin whose `id()` equals `i`. -/
def slotOk (ps : List EnginePluginData) (i : Nat) : Bool :=
  match (ps.getD i emptySlot).plugin with
  | none => false
  | some p => p.pid == i

/-- The plugin-table invariant: the slot array has `maxPluginNumber` entries,
the count stays within the (32-bit-representable) capacity, and every index
below `curPluginCount` holds a plugin with matching id — the dense occupied
prefix of spec §3. -/
def PluginTableInv (e : CarlaEngine) : Prop :=
  e.plugins.length = e.maxPluginNumber ∧
  e.curPluginCount ≤ e.maxPluginNumber ∧
  e.maxPluginNumber < 2 ^ 32 ∧
  ∀ i, i < e.curPluginCount → slotOk e.plugins i = true

/-- `sname.truncate(maxClientNameSize()-5-1); sname.replace(':', '.');`
(carla_engine.cpp:882-883).  `CarlaString` is a plain byte string utility that
lives outside these sources; truncation keeps the first `n` characters and
`replace` substitutes every occurrence. -/
def sanitizeName (s : String) : List Char :=
  (s.toList.take (maxClientNameSize - 5 - 1)).map (fun c => if c = ':' then '.' else c)

/-- One iteration body of the `getNewUniquePluginName` loop
(carla_engine.cpp:885-941) for one existing plugin name: skip unless the current
candidate equals that name; otherwise bump a trailing ` (N)` suffix (one digit:
`9 → (10)`, else next digit; two digits: increment with carry) or append ` (2)`.
The suffix pattern tests index `sname[len-4]` (resp. `len-5`); they can only
match a genuine ` (N)` suffix, which needs `len ≥ 4` (resp. `≥ 5`) — shorter
candidates take the append branch (CarlaString indexing out of range is not
defined by these sources). -/
def uniqueNameStep (s : List Char) (pluginName : String) : List Char :=
  if s ≠ pluginName.toList then s
  else
    let len := s.length
    if 4 ≤ len ∧ s.getD (len - 4) ' ' = ' ' ∧ s.getD (len - 3) ' ' = '(' ∧
        (s.getD (len - 2) ' ').isDigit ∧ s.getD (len - 1) ' ' = ')' then
      let d := s.getD (len - 2) ' '
      if d = '9' then s.take (len - 4) ++ (" (10)".toList)
      else s.set (len - 2) (Char.ofNat (d.toNat + 1))
    else if 5 ≤ len ∧ s.getD (len - 5) ' ' = ' ' ∧ s.getD (len - 4) ' ' = '(' ∧
        (s.getD (len - 3) ' ').isDigit ∧ (s.getD (len - 2) ' ').isDigit ∧
        s.getD (len - 1) ' ' = ')' then
      let n2 := s.getD (len - 2) ' '
      let n3 := s.getD (len - 3) ' '
      if n2 = '9' then (s.set (len - 2) '0').set (len - 3) (Char.ofNat (n3.toNat + 1))
      else s.set (len - 2) (Char.ofNat (n2.toNat + 1))
    else s ++ (" (2)".toList)

/-- The `for (i=0; i < curPluginCount; i++)` fold of `getNewUniquePluginName`
over the slot indices; a null slot contributes nothing (unreachable under the
table invariant, where the code only asserts it). -/
def uniqueNameFold (e : CarlaEngine) : List Char → List Nat → List Char
  | s, [] => s
  | s, i :: rest =>
    let s' :=
      match (e.plugins.getD i emptySlot).plugin with
      | none => s
      | some p => uniqueNameStep s p.name
    uniqueNameFold e s' rest

/-- `CarlaEngine::getNewUniquePluginName` (carla_engine.cpp:866-944). -/
def getNewUniquePluginName (e : CarlaEngine) (name : String) : String :=
  if name = "" then "(No name)"
  else
    String.mk (uniqueNameFold e (sanitizeName name) (List.range e.curPluginCount))

/-- The plugin names currently installed in the occupied slot prefix. -/
def pluginNames (e : CarlaEngine) : List String :=
  (List.range e.curPluginCount).filterMap
    (fun i => ((e.plugins.getD i emptySlot).plugin).map CarlaPlugin.name)

/-- Result of one rack block: the two output channels and the trace of plugin
ids on which `plugin->process` was invoked. -/
structure RackResult where
  outL : List ℚ
  outR : List ℚ
  processCalls : List Nat
deriving DecidableEq, Repr

/-- `CarlaEngine::processRack` (carla_engine.cpp:1318-1427) as compiled:
outputs are zeroed; the per-plugin loop skips null/disabled plugins and — the
whole processing body, including both `plugin->process(...)` call sites
(carla_engine.cpp:1366 and 1370), being excluded by `#if 0` — only sets
`processed = true`; if no plugin ran, inputs are copied over outputs
(`memcpy` of `frames` floats).  `processCalls` records the ids passed to
`plugin->process`; no call site is compiled, so nothing is ever recorded. -/
def processRack (e : CarlaEngine) (inL inR : List ℚ) (frames : Nat) : RackResult :=
  let outL := List.replicate frames (0 : ℚ)
  let outR := List.replicate frames (0 : ℚ)
  let processed := (List.range e.curPluginCount).any (fun i =>
    match (e.plugins.getD i emptySlot).plugin with
    | none => false
    | some plugin => plugin.enabled)
  if processed then ⟨outL, outR, []⟩
  else ⟨inL.take frames, inR.take frames, []⟩

/-- `static_cast<ProcessMode>(value)` for `value ∈ [SingleClient..Patchbay]`
(enum values `0..3`); other values never reach the cast. -/
def processModeOfInt (value : Int) : ProcessMode :=
  if value = 0 then .singleClient
  else if value = 1 then .multipleClients
  else if value = 2 then .continuousRack
  else if value = 3 then .patchbay
  else .bridge

/-- The `OPTION_PROCESS_MODE` case of `CarlaEngine::setOption`
(carla_engine.cpp:1106-1113): rejected with a logged error while running
(`CARLA_ENGINE_SET_OPTION_RUNNING_CHECK`); rejected when the value is outside
`[PROCESS_MODE_SINGLE_CLIENT .. PROCESS_MODE_PATCHBAY]` (`0..3`); otherwise the
cast value is stored in `fOptions.processMode`. -/
def setOptionProcessMode (e : CarlaEngine) (value : Int) : CarlaEngine :=
  if e.running then e
  else if value < 0 ∨ 3 < value then e
  else { e with options := { e.options with processMode := processModeOfInt value } }

instance (e : CarlaEngine) : Decidable (PluginTableInv e) := by
  unfold PluginTableInv; infer_instance

/-- Engine options with no bridge configuration, rack mode (used by examples). -/
def rackOpts : EngineOptions := ⟨.continuousRack, false, "", "", "", "", ""⟩

/-- An engine whose occupied slot prefix carries the given plugin names (ids and
the rest of the plugin fields are irrelevant to the naming service). -/
def mkNamedEngine (names : List String) : CarlaEngine :=
  { options := rackOpts, engineType := .jack, running := true,
    plugins := names.map (fun n => ⟨some ⟨0, 0, n, true, 0, 0⟩, (0, 0), (0, 0)⟩),
    curPluginCount := names.length, maxPluginNumber := names.length, lastError := "" }

/-- Options requesting plugin bridges with a configured posix32 bridge binary,
in single-client mode (first rejected branch of the bridge policy). -/
def bridgeOptsSingle : EngineOptions := ⟨.singleClient, true, "", "/bridge32", "", "", ""⟩

/-- Options requesting plugin bridges with a configured posix32 bridge binary,
in multi-client mode (second rejected branch: engine type is not JACK). -/
def bridgeOptsMulti : EngineOptions := ⟨.multipleClients, true, "", "/bridge32", "", "", ""⟩

/-- A rack engine holding one enabled plugin (built through the API). -/
def rackEngineOne : CarlaEngine :=
  (addPlugin (initEngine rackOpts .jack) .native .internal true 0 "noop" true).2

end Carla

namespace Carla

/-! ### List helper lemmas -/

theorem getD_set_self {α : Type _} (l : List α) (n : Nat) (a d : α) (h : n < l.length) :
    (l.set n a).getD n d = a := by
  induction l generalizing n with
  | nil => simp at h
  | cons x xs ih =>
    cases n with
    | zero => rfl
    | succ n => exact ih n (Nat.lt_of_succ_lt_succ h)

theorem getD_set_ne {α : Type _} (l : List α) {m n : Nat} (a d : α) (h : m ≠ n) :
    (l.set m a).getD n d = l.getD n d := by
  induction l generalizing m n with
  | nil => rfl
  | cons x xs ih =>
    cases m with
    | zero =>
      cases n with
      | zero => exact absurd rfl h
      | succ n => rfl
    | succ m =>
      cases n with
      | zero => rfl
      | succ n => exact ih (fun hc => h (congrArg Nat.succ hc))

/-! ### Event-count scan lemmas -/

theorem getEventCountLoop_le (bound : Nat) :
    ∀ buf : List EngineEvent, getEventCountLoop bound buf ≤ bound := by
  induction bound with
  | zero => intro buf; cases buf <;> simp [getEventCountLoop]
  | succ b ih =>
    intro buf
    cases buf with
    | nil => simp [getEventCountLoop]
    | cons e rest =>
      by_cases h : e.type = EngineEventType.null
      · simp [getEventCountLoop, h]
      · simpa [getEventCountLoop, h] using Nat.succ_le_succ (ih rest)

theorem getEventCountLoop_eq_findIdx :
    ∀ (buf : List EngineEvent) (bound : Nat), buf.length ≤ bound →
      (∃ e ∈ buf, e.type = EngineEventType.null) →
      getEventCountLoop bound buf = buf.findIdx (fun e => e.type == EngineEventType.null) := by
  intro buf
  induction buf with
  | nil => intro bound _ hex; simp at hex
  | cons e rest ih =>
    intro bound hlen hex
    cases bound with
    | zero => simp at hlen
    | succ b =>
      by_cases h : e.type = EngineEventType.null
      · simp [getEventCountLoop, h, List.findIdx_cons]
      · have hex' : ∃ x ∈ rest, x.type = EngineEventType.null := by
          rcases hex with ⟨x, hx, hxt⟩
          rcases List.mem_cons.mp hx with rfl | hx'
          · exact absurd hxt h
          · exact ⟨x, hx', hxt⟩
        have hlen' : rest.length ≤ b := Nat.le_of_succ_le_succ (by simpa using hlen)
        have hbeq : (e.type == EngineEventType.null) = false := by simpa using h
        simp [getEventCountLoop, h, List.findIdx_cons, hbeq, ih b hlen' hex']

theorem getEventCountLoop_full :
    ∀ (buf : List EngineEvent) (bound : Nat), buf.length = bound →
      (∀ e ∈ buf, e.type ≠ EngineEventType.null) →
      getEventCountLoop bound buf = bound := by
  intro buf
  induction buf with
  | nil => intro bound hlen _; subst hlen; rfl
  | cons e rest ih =>
    intro bound hlen hall
    cases bound with
    | zero => simp at hlen
    | succ b =>
      have h : e.type ≠ EngineEventType.null := hall e (List.mem_cons_self e rest)
      have hlen' : rest.length = b := Nat.succ_injective (by simpa using hlen)
      have hall' : ∀ x ∈ rest, x.type ≠ EngineEventType.null :=
        fun x hx => hall x (List.mem_cons_of_mem e hx)
      simp [getEventCountLoop, h, ih b hlen' hall']

/-! ### Write-scan lemma -/

theorem writeControlLoop_at_first_null :
    ∀ (n : Nat) (buf : List EngineEvent) (bound t c : Nat)
      (ty : EngineControlEventType) (par : Nat) (v : ℚ),
      (∀ j, j < n → (buf.getD j kFallbackEngineEvent).type ≠ EngineEventType.null) →
      (buf.getD n kFallbackEngineEvent).type = EngineEventType.null →
      n < bound → n < buf.length →
      writeControlLoop bound buf t c ty par v =
        buf.set n { buf.getD n kFallbackEngineEvent with
                    type := .control, time := t, channel := c, ctrl := ⟨ty, par, v⟩ } := by
  intro n
  induction n with
  | zero =>
    intro buf bound t c ty par v _ hnull hbound hlen
    cases buf with
    | nil => simp at hlen
    | cons e rest =>
      cases bound with
      | zero => simp at hbound
      | succ b =>
        have : e.type = EngineEventType.null := hnull
        simp [writeControlLoop, this, List.set]
  | succ n ih =>
    intro buf bound t c ty par v hpre hnull hbound hlen
    cases buf with
    | nil => simp at hlen
    | cons e rest =>
      cases bound with
      | zero => simp at hbound
      | succ b =>
        have he : e.type ≠ EngineEventType.null := hpre 0 (Nat.succ_pos n)
        have hpre' : ∀ j, j < n →
            (rest.getD j kFallbackEngineEvent).type ≠ EngineEventType.null :=
          fun j hj => hpre (j + 1) (Nat.succ_lt_succ hj)
        have hrec := ih rest b t c ty par v hpre' hnull
          (Nat.lt_of_succ_lt_succ hbound) (Nat.lt_of_succ_lt_succ (by simpa using hlen))
        simp [writeControlLoop, he, hrec, List.set]


/-! ### Claim C7 — event_count scans to the first Null -/

/-- C7: on an input event port (rack or patchbay) whose buffer contains a `Null`
entry, `getEventCount` returns the index of the first `Null` entry (the number of
non-`Null` entries scanned from index 0); on a non-input port or a port with a
missing buffer it returns 0.  (Ports whose buffer is present only exist in rack
and patchbay modes, and every buffer the program attaches has exactly
`kMaxEventCount` entries — hence the mode and length hypotheses.) -/
theorem getEventCount_first_null_index (p : CarlaEngineEventPort) :
    (p.kIsInput = false → getEventCount p = 0) ∧
    (p.fBuffer = none → getEventCount p = 0) ∧
    (∀ buf : List EngineEvent, p.kIsInput = true → p.fBuffer = some buf →
      (p.kProcessMode = .continuousRack ∨ p.kProcessMode = .patchbay) →
      buf.length = kMaxEventCount p →
      (∃ e ∈ buf, e.type = EngineEventType.null) →
      getEventCount p = buf.findIdx (fun e => e.type == EngineEventType.null)) := by
  refine ⟨?_, ?_, ?_⟩
  · intro h; simp [getEventCount, h]
  · intro h
    cases hin : p.kIsInput with
    | false => simp [getEventCount, hin]
    | true => simp [getEventCount, hin, h]
  · intro buf hin hbuf hmode hlen hex
    simp only [getEventCount, hin, hbuf, hmode]
    simp only [not_true, if_false, if_pos hmode]
    exact getEventCountLoop_eq_findIdx buf (kMaxEventCount p) (Nat.le_of_eq hlen) hex

/-- C7 witness: a patchbay input port whose buffer holds one control event
followed by `Null` padding has `getEventCount` equal to the first-`Null` index 1. -/
theorem getEventCount_first_null_index_witness :
    getEventCount ⟨true, .patchbay,
        some ({ kFallbackEngineEvent with type := .control } ::
          List.replicate 511 kFallbackEngineEvent)⟩ =
      ({ kFallbackEngineEvent with type := .control } ::
          List.replicate 511 kFallbackEngineEvent).findIdx
        (fun e => e.type == EngineEventType.null) :=
  (getEventCount_first_null_index _).2.2 _ rfl rfl (Or.inr rfl)
    (by simp [kMaxEventCount, PATCHBAY_EVENT_COUNT])
    ⟨kFallbackEngineEvent,
      List.mem_cons_of_mem _ (List.mem_replicate.mpr ⟨by decide, rfl⟩), rfl⟩

/-! ### Claim C8 — get_event is total via the Null sentinel -/

/-- C8: `getEvent i` is total: a non-input port, a missing buffer, or
`i ≥ kMaxEventCount` yields the process-wide `kFallbackEngineEvent` sentinel
instead of an error or an out-of-bounds read; otherwise (rack/patchbay input
port with its full-capacity buffer) it yields the buffer entry at index `i`. -/
theorem getEvent_total_fallback (p : CarlaEngineEventPort) (i : Nat) :
    (p.kIsInput = false → getEvent p i = kFallbackEngineEvent) ∧
    (p.fBuffer = none → getEvent p i = kFallbackEngineEvent) ∧
    (kMaxEventCount p ≤ i → getEvent p i = kFallbackEngineEvent) ∧
    (∀ buf : List EngineEvent, p.kIsInput = true → p.fBuffer = some buf →
      i < kMaxEventCount p →
      (p.kProcessMode = .continuousRack ∨ p.kProcessMode = .patchbay) →
      i < buf.length →
      getEvent p i = buf.getD i kFallbackEngineEvent) := by
  refine ⟨?_, ?_, ?_, ?_⟩
  · intro h; simp [getEvent, h]
  · intro h
    cases hin : p.kIsInput with
    | false => simp [getEvent, hin]
    | true => simp [getEvent, hin, h]
  · intro h
    cases hin : p.kIsInput with
    | false => simp [getEvent, hin]
    | true =>
      cases hb : p.fBuffer with
      | none => simp [getEvent, hin, hb]
      | some events => simp only [getEvent, hin, hb, not_true, if_false, if_pos h]
  · intro buf hin hbuf hlt hmode _hl
    simp only [getEvent, hin, hbuf, not_true, if_false,
      if_neg (Nat.not_le_of_lt hlt), if_pos hmode]

/-- C8 witness: an out-of-capacity read on a patchbay input port returns the
sentinel, and an in-range read returns the stored entry. -/
theorem getEvent_total_fallback_witness :
    getEvent ⟨true, .patchbay, some (List.replicate 512 kFallbackEngineEvent)⟩ 512 =
        kFallbackEngineEvent ∧
    getEvent ⟨true, .patchbay,
        some ({ kFallbackEngineEvent with type := .control } ::
          List.replicate 511 kFallbackEngineEvent)⟩ 0 =
      ({ kFallbackEngineEvent with type := .control } ::
          List.replicate 511 kFallbackEngineEvent).getD 0 kFallbackEngineEvent :=
  ⟨(getEvent_total_fallback _ 512).2.2.1 (by decide),
   (getEvent_total_fallback _ 0).2.2.2 _ rfl rfl (by decide) (Or.inr rfl) (by simp)⟩

/-! ### Claim C10 — the scan is bounded by the capacity -/

/-- C10: `getEventCount` never exceeds the port capacity `kMaxEventCount`
(`RACK_EVENT_COUNT` in rack mode, `PATCHBAY_EVENT_COUNT` in patchbay mode), and
on a completely full buffer (no `Null` entry at all) it returns exactly the
capacity instead of scanning further. -/
theorem getEventCount_le_capacity_and_full :
    (∀ p : CarlaEngineEventPort, getEventCount p ≤ kMaxEventCount p) ∧
    (∀ (p : CarlaEngineEventPort) (buf : List EngineEvent),
      p.kIsInput = true → p.fBuffer = some buf →
      (p.kProcessMode = .continuousRack ∨ p.kProcessMode = .patchbay) →
      buf.length = kMaxEventCount p →
      (∀ e ∈ buf, e.type ≠ EngineEventType.null) →
      getEventCount p = kMaxEventCount p) := by
  constructor
  · intro p
    unfold getEventCount
    split
    · exact Nat.zero_le _
    · split
      · exact Nat.zero_le _
      · split
        · exact getEventCountLoop_le _ _
        · exact Nat.zero_le _
  · intro p buf hin hbuf hmode hlen hall
    simp only [getEventCount, hin, hbuf, not_true, if_false, if_pos hmode]
    exact getEventCountLoop_full buf (kMaxEventCount p) hlen hall

/-- C10 witness: a patchbay input buffer with 512 non-`Null` entries yields
exactly the capacity. -/
theorem getEventCount_le_capacity_and_full_witness :
    getEventCount ⟨true, .patchbay,
        some (List.replicate 512 { kFallbackEngineEvent with type := .control })⟩ =
      kMaxEventCount ⟨true, .patchbay,
        some (List.replicate 512 { kFallbackEngineEvent with type := .control })⟩ :=
  getEventCount_le_capacity_and_full.2 _ _ rfl rfl (Or.inr rfl)
    (by simp [kMaxEventCount, PATCHBAY_EVENT_COUNT])
    (fun e he => by rw [List.eq_of_mem_replicate he]; decide)

/-! ### Control writes — shared reduction lemma -/

/-- On an output port with a buffer, in rack/patchbay mode, with a non-`Null`
control type and a valid channel, `writeControlEvent` runs the write scan —
for every `value`, in range or not (the value precondition is assert-only). -/
theorem writeControlEvent_writes (p : CarlaEngineEventPort) (buf : List EngineEvent)
    (t c : Nat) (ty : EngineControlEventType) (par : Nat) (v : ℚ)
    (hout : p.kIsInput = false) (hbuf : p.fBuffer = some buf)
    (hty : ty ≠ .ctrlNull) (hc : c < MAX_MIDI_CHANNELS)
    (hmode : p.kProcessMode = .continuousRack ∨ p.kProcessMode = .patchbay) :
    writeControlEvent p t c ty par v =
      { p with fBuffer := some (writeControlLoop (kMaxEventCount p) buf t c ty par v) } := by
  simp only [writeControlEvent, hout, hbuf, if_neg hty, if_neg (Nat.not_le_of_lt hc),
    if_pos hmode, Bool.false_eq_true, if_false]

/-! ### Claim C3 — write_control precondition handling -/

/-- C3 counterexample: the claim says a `write_control` whose `value` lies
outside `[0,1]` returns without writing; but with `value = 2` on an output
patchbay port with an empty (all-`Null`) buffer the event *is* written — the
value and bank-select preconditions are only `CARLA_ASSERT`ed, with no early
return. -/
theorem writeControlEvent_value_unchecked_counterexample :
    (1 : ℚ) < 2 ∧
    (writeControlEvent ⟨false, .patchbay, some (List.replicate 512 kFallbackEngineEvent)⟩
        0 3 .parameter 7 2).fBuffer =
      some ((⟨.control, 0, 3, ⟨.parameter, 7, 2⟩, ⟨0, 0, 0, 0, 0⟩⟩ : EngineEvent) ::
        List.replicate 511 kFallbackEngineEvent) := by
  decide

/-- C3 (amended): on an output event port with a buffer, a violated channel
precondition (`channel ≥ 16`) or a `Null` control type returns without writing;
but the `value ∈ [0,1]` and bank-select preconditions are assert-only — with a
valid channel and non-`Null` type the write scan runs for *every* `value`
(in particular `value = 1.0` and any `value > 1.0` are both written). -/
theorem writeControlEvent_guard_semantics (p : CarlaEngineEventPort)
    (buf : List EngineEvent) (t c : Nat) (ty : EngineControlEventType)
    (par : Nat) (v : ℚ)
    (hout : p.kIsInput = false) (hbuf : p.fBuffer = some buf) :
    (ty = .ctrlNull → writeControlEvent p t c ty par v = p) ∧
    (MAX_MIDI_CHANNELS ≤ c → writeControlEvent p t c ty par v = p) ∧
    (ty ≠ .ctrlNull → c < MAX_MIDI_CHANNELS →
      (p.kProcessMode = .continuousRack ∨ p.kProcessMode = .patchbay) →
      writeControlEvent p t c ty par v =
        { p with fBuffer := some (writeControlLoop (kMaxEventCount p) buf t c ty par v) }) := by
  refine ⟨?_, ?_, ?_⟩
  · intro h
    simp [writeControlEvent, hout, hbuf, h]
  · intro h
    simp only [writeControlEvent, hout, hbuf, Bool.false_eq_true, if_false]
    split_ifs <;> rfl
  · intro hty hc hmode
    exact writeControlEvent_writes p buf t c ty par v hout hbuf hty hc hmode

/-- C3 witness: a write with the out-of-range value `3/2` on a one-slot output
buffer runs the write scan. -/
theorem writeControlEvent_guard_semantics_witness :
    writeControlEvent ⟨false, .patchbay, some [kFallbackEngineEvent]⟩ 9 3 .parameter 7 (3/2) =
      { (⟨false, .patchbay, some [kFallbackEngineEvent]⟩ : CarlaEngineEventPort) with
        fBuffer := some (writeControlLoop
          (kMaxEventCount ⟨false, .patchbay, some [kFallbackEngineEvent]⟩)
          [kFallbackEngineEvent] 9 3 .parameter 7 (3/2)) } :=
  (writeControlEvent_guard_semantics _ [kFallbackEngineEvent] 9 3 .parameter 7 (3/2)
    rfl rfl).2.2 (by decide) (by decide) (Or.inr rfl)

/-! ### Claim C6 — write-then-read round trip -/

/-- Reading an input event port (rack/patchbay) within capacity returns the
buffer entry — helper for the round trip. -/
theorem getEvent_input_eq (mode : ProcessMode) (buf : List EngineEvent) (i : Nat)
    (hmode : mode = .continuousRack ∨ mode = .patchbay)
    (hcap : i < kMaxEventCount ⟨true, mode, some buf⟩) :
    getEvent ⟨true, mode, some buf⟩ i = buf.getD i kFallbackEngineEvent := by
  simp only [getEvent, not_true, if_false, if_neg (Nat.not_le_of_lt hcap), if_pos hmode]

/-- C6: if an output event port's buffer holds `n` events (entries `0..n-1`
non-`Null`, entry `n` `Null`) and `writeControlEvent t c ty par v` succeeds
(output port, valid channel, non-`Null` type, slot available), then reading the
port's buffer back as an input yields at index `n` an event whose
time/channel/control-type/param/value equal the written arguments. -/
theorem writeControl_then_getEvent_roundtrip (p : CarlaEngineEventPort)
    (buf : List EngineEvent) (n t c : Nat) (ty : EngineControlEventType)
    (par : Nat) (v : ℚ)
    (hout : p.kIsInput = false) (hbuf : p.fBuffer = some buf)
    (hmode : p.kProcessMode = .continuousRack ∨ p.kProcessMode = .patchbay)
    (hty : ty ≠ .ctrlNull) (hc : c < MAX_MIDI_CHANNELS)
    (hpre : ∀ j, j < n → (buf.getD j kFallbackEngineEvent).type ≠ EngineEventType.null)
    (hnull : (buf.getD n kFallbackEngineEvent).type = EngineEventType.null)
    (hcap : n < kMaxEventCount p) (hlen : n < buf.length) :
    (getEvent ⟨true, p.kProcessMode, (writeControlEvent p t c ty par v).fBuffer⟩ n).type
        = EngineEventType.control ∧
    (getEvent ⟨true, p.kProcessMode, (writeControlEvent p t c ty par v).fBuffer⟩ n).time = t ∧
    (getEvent ⟨true, p.kProcessMode, (writeControlEvent p t c ty par v).fBuffer⟩ n).channel = c ∧
    (getEvent ⟨true, p.kProcessMode, (writeControlEvent p t c ty par v).fBuffer⟩ n).ctrl.type = ty ∧
    (getEvent ⟨true, p.kProcessMode, (writeControlEvent p t c ty par v).fBuffer⟩ n).ctrl.param = par ∧
    (getEvent ⟨true, p.kProcessMode, (writeControlEvent p t c ty par v).fBuffer⟩ n).ctrl.value = v := by
  have hw := writeControlEvent_writes p buf t c ty par v hout hbuf hty hc hmode
  have hloop := writeControlLoop_at_first_null n buf (kMaxEventCount p) t c ty par v
    hpre hnull hcap hlen
  have hread : getEvent ⟨true, p.kProcessMode, (writeControlEvent p t c ty par v).fBuffer⟩ n =
      { buf.getD n kFallbackEngineEvent with
        type := .control, time := t, channel := c, ctrl := ⟨ty, par, v⟩ } := by
    rw [hw, hloop]
    rw [getEvent_input_eq p.kProcessMode _ n hmode hcap]
    exact getD_set_self buf n _ kFallbackEngineEvent hlen
  rw [hread]
  exact ⟨rfl, rfl, rfl, rfl, rfl, rfl⟩

/-- C6 witness: writing `(5, 3, Parameter, 7, 1/2)` into an empty 512-slot
output buffer and reading index 0 back returns the written time and value. -/
theorem writeControl_then_getEvent_roundtrip_witness :
    (getEvent ⟨true, ProcessMode.patchbay,
        (writeControlEvent ⟨false, .patchbay, some (List.replicate 512 kFallbackEngineEvent)⟩
          5 3 .parameter 7 (1/2)).fBuffer⟩ 0).time = 5 ∧
    (getEvent ⟨true, ProcessMode.patchbay,
        (writeControlEvent ⟨false, .patchbay, some (List.replicate 512 kFallbackEngineEvent)⟩
          5 3 .parameter 7 (1/2)).fBuffer⟩ 0).ctrl.value = 1/2 :=
  ⟨(writeControl_then_getEvent_roundtrip
      ⟨false, .patchbay, some (List.replicate 512 kFallbackEngineEvent)⟩
      (List.replicate 512 kFallbackEngineEvent) 0 5 3 .parameter 7 (1/2)
      rfl rfl (Or.inr rfl) (by decide) (by decide) (by decide) (by decide) (by decide)
      (by simp)).2.1,
   (writeControl_then_getEvent_roundtrip
      ⟨false, .patchbay, some (List.replicate 512 kFallbackEngineEvent)⟩
      (List.replicate 512 kFallbackEngineEvent) 0 5 3 .parameter 7 (1/2)
      rfl rfl (Or.inr rfl) (by decide) (by decide) (by decide) (by decide) (by decide)
      (by simp)).2.2.2.2.2⟩

/-! ### Claim C9 — ProcessMode option gating -/

/-- C9: `setOption(ProcessMode, v, _)` on a running engine is rejected and the
engine (in particular `options.processMode`) is unchanged; on a stopped engine
an out-of-range `v` is rejected without mutation and an in-range `v` stores the
cast value in `options.processMode`, changing nothing else. -/
theorem setOption_processMode_gating (e : CarlaEngine) (v : Int) :
    (e.running = true → setOptionProcessMode e v = e) ∧
    (e.running = false → (v < 0 ∨ 3 < v) → setOptionProcessMode e v = e) ∧
    (e.running = false → 0 ≤ v → v ≤ 3 →
      setOptionProcessMode e v =
        { e with options := { e.options with processMode := processModeOfInt v } }) := by
  refine ⟨?_, ?_, ?_⟩
  · intro h; simp [setOptionProcessMode, h]
  · intro h hv; simp [setOptionProcessMode, h, hv]
  · intro h h0 h3
    have hrange : ¬ (v < 0 ∨ 3 < v) := by omega
    simp [setOptionProcessMode, h, hrange]

/-- C9 witness: a running rack engine rejects the change; the same engine
stopped accepts value 3 (`Patchbay`). -/
theorem setOption_processMode_gating_witness :
    setOptionProcessMode (initEngine rackOpts .jack) 3 = initEngine rackOpts .jack ∧
    setOptionProcessMode { initEngine rackOpts .jack with running := false } 3 =
      { { initEngine rackOpts .jack with running := false } with
        options := { { initEngine rackOpts .jack with running := false }.options with
          processMode := processModeOfInt 3 } } :=
  ⟨(setOption_processMode_gating (initEngine rackOpts .jack) 3).1 rfl,
   (setOption_processMode_gating { initEngine rackOpts .jack with running := false } 3).2.2
     rfl (by decide) (by decide)⟩

/-! ### Claim C2 — bridge-policy failure returns `true` -/

/-- C2 (code bug): with `preferPluginBridges` set and a bridge binary configured,
when the process mode is not `MultipleClients` (first engine below) or the
engine type is not JACK (second), `addPlugin` sets `last_error` and installs
nothing — but it *returns `true`*: the C++ `bool` function executes `return -1;`
and the integer converts to `true`, contradicting the claimed unsuccessful
boolean result. -/
theorem addPlugin_bridge_policy_returns_true :
    (addPlugin (initEngine bridgeOptsSingle .jack) .posix32 .ladspa true 0 "p" true).1
        = true ∧
    (addPlugin (initEngine bridgeOptsSingle .jack) .posix32 .ladspa true 0 "p" true).2.curPluginCount
        = 0 ∧
    (addPlugin (initEngine bridgeOptsSingle .jack) .posix32 .ladspa true 0 "p" true).2.plugins
        = (initEngine bridgeOptsSingle .jack).plugins ∧
    (addPlugin (initEngine bridgeOptsSingle .jack) .posix32 .ladspa true 0 "p" true).2.lastError
        = "Can only use bridged plugins in JACK Multi-Client mode" ∧
    (addPlugin (initEngine bridgeOptsMulti .rtAudio) .posix32 .ladspa true 0 "p" true).1
        = true ∧
    (addPlugin (initEngine bridgeOptsMulti .rtAudio) .posix32 .ladspa true 0 "p" true).2.curPluginCount
        = 0 ∧
    (addPlugin (initEngine bridgeOptsMulti .rtAudio) .posix32 .ladspa true 0 "p" true).2.lastError
        = "Can only use bridged plugins with JACK backend" := by
  decide

/-! ### Claim C4 — processRack never calls plugin.process -/

/-- C4 (code bug): `processRack` invokes `plugin->process` zero times — both
call sites are excluded by `#if 0` — even when an enabled plugin is installed
(the claim requires exactly one invocation per enabled plugin).  The concrete
engine below holds one enabled plugin and still no call is recorded. -/
theorem processRack_never_invokes_process :
    (∀ (e : CarlaEngine) (inL inR : List ℚ) (frames : Nat),
      (processRack e inL inR frames).processCalls = []) ∧
    rackEngineOne.curPluginCount = 1 ∧
    ((rackEngineOne.plugins.getD 0 emptySlot).plugin.map CarlaPlugin.enabled = some true) ∧
    (processRack rackEngineOne [1, 1] [-1, -1] 2).processCalls = [] := by
  refine ⟨?_, by decide, by decide, by decide⟩
  intro e inL inR frames
  simp only [processRack]
  split <;> rfl

/-! ### Claim C5 — unique plugin names -/

/-- A plugin installed at an occupied slot contributes its name to `pluginNames`. -/
theorem mem_pluginNames (e : CarlaEngine) (i : Nat) (p : CarlaPlugin)
    (hi : i < e.curPluginCount) (hp : (e.plugins.getD i emptySlot).plugin = some p) :
    p.name ∈ pluginNames e := by
  unfold pluginNames
  exact List.mem_filterMap.mpr ⟨i, List.mem_range.mpr hi, by rw [hp]; rfl⟩

/-- If the candidate differs from every installed plugin's name in the scanned
index list, the naming fold leaves it unchanged. -/
theorem uniqueNameFold_id (e : CarlaEngine) :
    ∀ (idx : List Nat) (s : List Char),
      (∀ i ∈ idx, ∀ p : CarlaPlugin,
        (e.plugins.getD i emptySlot).plugin = some p → p.name.toList ≠ s) →
      uniqueNameFold e s idx = s := by
  intro idx
  induction idx with
  | nil => intro s _; rfl
  | cons i rest ih =>
    intro s h
    cases hp : (e.plugins.getD i emptySlot).plugin with
    | none =>
      simp only [uniqueNameFold, hp]
      exact ih s (fun j hj => h j (List.mem_cons_of_mem _ hj))
    | some p =>
      have hne : p.name.toList ≠ s := h i (List.mem_cons_self i rest) p hp
      have hstep : uniqueNameStep s p.name = s := by
        unfold uniqueNameStep
        rw [if_pos (fun h' => hne h'.symm)]
      simp only [uniqueNameFold, hp, hstep]
      exact ih s (fun j hj => h j (List.mem_cons_of_mem _ hj))

/-- C5 counterexample: with existing plugins named `"synth (2)"` and `"synth"`
in that slot order, `get_new_unique_plugin_name("synth")` returns `"synth (2)"`
— the name of an existing plugin (the single order-dependent pass already moved
past slot 0 when the ` (2)` suffix was appended).  This falsifies "returns a
name not equal to any existing plugin's name" for arbitrary tables. -/
theorem getNewUniquePluginName_collision_counterexample :
    getNewUniquePluginName (mkNamedEngine ["synth (2)", "synth"]) "synth" = "synth (2)" ∧
    "synth (2)" ∈ pluginNames (mkNamedEngine ["synth (2)", "synth"]) := by
  decide

/-- C5 (amended): `get_new_unique_plugin_name(x)` returns `x` (sanitized: ≤
`maxClientNameSize - 6` characters, `':'` replaced by `'.'`) whenever `x` is
nonempty and no existing plugin carries the sanitized name — in particular it
returns `x` itself when `x` is unused and well-formed; and the spec's scenario
holds as stated when the colliding names occupy slots in ascending suffix
order: with `"synth"`, `"synth (2)"`, …, `"synth (N)"` installed in that order,
the call yields `"synth (N+1)"`, up to `"synth (10)"`.  (For tables where a
colliding name sits at an earlier slot than the name that triggered the last
modification, the result can collide — see the counterexample.) -/
theorem getNewUniquePluginName_unused_and_scenario :
    (∀ (e : CarlaEngine) (x : String), x ≠ "" →
      (∀ nm ∈ pluginNames e, nm.toList ≠ sanitizeName x) →
      getNewUniquePluginName e x = String.mk (sanitizeName x)) ∧
    (∀ (e : CarlaEngine) (x : String), x ≠ "" →
      (∀ nm ∈ pluginNames e, nm.toList ≠ sanitizeName x) →
      sanitizeName x = x.toList →
      getNewUniquePluginName e x = x) ∧
    (getNewUniquePluginName (mkNamedEngine ["synth", "synth (2)"]) "synth" = "synth (3)" ∧
     getNewUniquePluginName (mkNamedEngine
       ["synth", "synth (2)", "synth (3)"]) "synth" = "synth (4)" ∧
     getNewUniquePluginName (mkNamedEngine
       ["synth", "synth (2)", "synth (3)", "synth (4)"]) "synth" = "synth (5)" ∧
     getNewUniquePluginName (mkNamedEngine
       ["synth", "synth (2)", "synth (3)", "synth (4)", "synth (5)"]) "synth" = "synth (6)" ∧
     getNewUniquePluginName (mkNamedEngine
       ["synth", "synth (2)", "synth (3)", "synth (4)", "synth (5)",
        "synth (6)"]) "synth" = "synth (7)" ∧
     getNewUniquePluginName (mkNamedEngine
       ["synth", "synth (2)", "synth (3)", "synth (4)", "synth (5)", "synth (6)",
        "synth (7)"]) "synth" = "synth (8)" ∧
     getNewUniquePluginName (mkNamedEngine
       ["synth", "synth (2)", "synth (3)", "synth (4)", "synth (5)", "synth (6)",
        "synth (7)", "synth (8)"]) "synth" = "synth (9)" ∧
     getNewUniquePluginName (mkNamedEngine
       ["synth", "synth (2)", "synth (3)", "synth (4)", "synth (5)", "synth (6)",
        "synth (7)", "synth (8)", "synth (9)"]) "synth" = "synth (10)") := by
  have hmain : ∀ (e : CarlaEngine) (x : String), x ≠ "" →
      (∀ nm ∈ pluginNames e, nm.toList ≠ sanitizeName x) →
      getNewUniquePluginName e x = String.mk (sanitizeName x) := by
    intro e x hx hnm
    unfold getNewUniquePluginName
    rw [if_neg hx]
    congr 1
    refine uniqueNameFold_id e (List.range e.curPluginCount) (sanitizeName x) ?_
    intro i hi p hp
    exact hnm p.name (mem_pluginNames e i p (List.mem_range.mp hi) hp)
  refine ⟨hmain, ?_, by decide⟩
  intro e x hx hnm hsan
  rw [hmain e x hx hnm, hsan]
  rfl

/-- C5 witness: with one plugin named `"synth"`, the unused well-formed name
`"flute"` is returned unchanged. -/
theorem getNewUniquePluginName_unused_and_scenario_witness :
    ("flute" : String) ≠ "" ∧
    getNewUniquePluginName (mkNamedEngine ["synth"]) "flute" = "flute" :=
  ⟨by decide,
   getNewUniquePluginName_unused_and_scenario.2.1 (mkNamedEngine ["synth"]) "flute"
     (by decide) (by decide) (by decide)⟩

/-! ### Claim C1 — plugin-table density and compaction -/

theorem slotOk_some (ps : List EnginePluginData) (i : Nat)
    (h : slotOk ps i = true) :
    ∃ p : CarlaPlugin, (ps.getD i emptySlot).plugin = some p ∧ p.pid = i := by
  unfold slotOk at h
  cases hp : (ps.getD i emptySlot).plugin with
  | none => rw [hp] at h; cases h
  | some p =>
    rw [hp] at h
    simp only [beq_iff_eq] at h
    exact ⟨p, rfl, h⟩

theorem slotOk_isSome (ps : List EnginePluginData) (i : Nat)
    (h : slotOk ps i = true) :
    ((ps.getD i emptySlot).plugin).isSome = true := by
  obtain ⟨p, hp, _⟩ := slotOk_some ps i h
  rw [hp]; rfl

theorem addPlugin_inv (e : CarlaEngine) (btype : BinaryType) (ptype : PluginType)
    (ctorOk : Bool) (uid : Nat) (pname : String) (en : Bool)
    (hInv : PluginTableInv e) :
    PluginTableInv (addPlugin e btype ptype ctorOk uid pname en).2 := by
  obtain ⟨hlen, hle, hmax, hok⟩ := hInv
  by_cases hcap : e.curPluginCount = e.maxPluginNumber
  · simp only [addPlugin, if_pos hcap]
    exact ⟨hlen, hle, hmax, hok⟩
  · simp only [addPlugin, if_neg hcap]
    by_cases hbr : e.options.preferPluginBridges ∧ bridgeBinaryFor e.options btype ≠ none
    · rw [if_pos hbr]
      split_ifs <;> exact ⟨hlen, hle, hmax, hok⟩
    · rw [if_neg hbr]
      by_cases hpt : ptype = PluginType.none
      · rw [if_pos hpt]
        exact ⟨hlen, hle, hmax, hok⟩
      · rw [if_neg hpt]
        cases hco : ctorOk with
        | false => exact ⟨hlen, hle, hmax, hok⟩
        | true =>
          rw [if_pos rfl]
          have hcnt : e.curPluginCount < e.maxPluginNumber :=
            Nat.lt_of_le_of_ne hle hcap
          refine ⟨?_, ?_, hmax, ?_⟩
          · show (e.plugins.set e.curPluginCount _).length = e.maxPluginNumber
            rw [List.length_set, hlen]
          · show e.curPluginCount + 1 ≤ e.maxPluginNumber
            omega
          · intro i hi
            have hi' : i < e.curPluginCount + 1 := hi
            show slotOk (e.plugins.set e.curPluginCount
              ⟨some ⟨uid, e.curPluginCount, pname, en, 0, 0⟩, (0, 0), (0, 0)⟩) i = true
            rcases Nat.lt_succ_iff_lt_or_eq.mp hi' with hlt | heqi
            · unfold slotOk
              rw [getD_set_ne _ _ _ (show e.curPluginCount ≠ i by omega)]
              have := hok i hlt
              unfold slotOk at this
              exact this
            · subst heqi
              unfold slotOk
              rw [getD_set_self _ _ _ _ (by rw [hlen]; omega)]
              simp

theorem doPluginRemoveLoop_spec :
    ∀ (fuel : Nat) (ps : List EnginePluginData) (i : Nat),
      (∀ j, i ≤ j → j < i + fuel → ((ps.getD (j + 1) emptySlot).plugin).isSome = true) →
      i + fuel ≤ ps.length →
      (doPluginRemoveLoop ps i fuel).length = ps.length ∧
      (∀ j, j < i ∨ i + fuel ≤ j →
        (doPluginRemoveLoop ps i fuel).getD j emptySlot = ps.getD j emptySlot) ∧
      (∀ j, i ≤ j → j < i + fuel →
        (doPluginRemoveLoop ps i fuel).getD j emptySlot =
          ⟨((ps.getD (j + 1) emptySlot).plugin).map (fun p => { p with pid := j }),
            (0, 0), (0, 0)⟩) := by
  intro fuel
  induction fuel with
  | zero =>
    intro ps i _ _
    exact ⟨rfl, fun j _ => rfl, fun j hj hj' => absurd hj' (by omega)⟩
  | succ fuel ih =>
    intro ps i hocc hlen
    have hS := hocc i (Nat.le_refl i) (by omega)
    obtain ⟨plugin, hp⟩ := Option.isSome_iff_exists.mp hS
    have hstep : doPluginRemoveLoop ps i (fuel + 1) =
        doPluginRemoveLoop (ps.set i ⟨some { plugin with pid := i }, (0, 0), (0, 0)⟩)
          (i + 1) fuel := by
      conv_lhs => rw [doPluginRemoveLoop]
      rw [hp]
    have hlen' : (ps.set i ⟨some { plugin with pid := i }, (0, 0), (0, 0)⟩).length
        = ps.length := List.length_set ps i _
    have hocc' : ∀ j, i + 1 ≤ j → j < (i + 1) + fuel →
        (((ps.set i ⟨some { plugin with pid := i }, (0, 0), (0, 0)⟩).getD (j + 1)
          emptySlot).plugin).isSome = true := by
      intro j hj hj'
      rw [getD_set_ne _ _ _ (show i ≠ j + 1 by omega)]
      exact hocc j (by omega) (by omega)
    have hlen2 : (i + 1) + fuel ≤
        (ps.set i ⟨some { plugin with pid := i }, (0, 0), (0, 0)⟩).length := by
      rw [hlen']; omega
    obtain ⟨ihlen, ihfrozen, ihwin⟩ := ih _ (i + 1) hocc' hlen2
    refine ⟨?_, ?_, ?_⟩
    · rw [hstep, ihlen, hlen']
    · intro j hj
      rw [hstep, ihfrozen j (by omega), getD_set_ne _ _ _ (show i ≠ j by omega)]
    · intro j hij hjlt
      by_cases hji : j = i
      · subst hji
        rw [hstep, ihfrozen j (Or.inl (by omega)),
          getD_set_self _ _ _ _ (by omega : j < ps.length), hp]
        rfl
      · rw [hstep, ihwin j (by omega) (by omega),
          getD_set_ne _ _ _ (show i ≠ j + 1 by omega)]

theorem doPluginRemove_spec (e : CarlaEngine) (k : Nat)
    (hInv : PluginTableInv e) (hk : k < e.curPluginCount) :
    PluginTableInv (doPluginRemove e k) ∧
    (doPluginRemove e k).curPluginCount = e.curPluginCount - 1 ∧
    (∀ i, k ≤ i → i + 1 < e.curPluginCount →
      ((doPluginRemove e k).plugins.getD i emptySlot).plugin
          = ((e.plugins.getD (i + 1) emptySlot).plugin).map (fun p => { p with pid := i }) ∧
      ((doPluginRemove e k).plugins.getD i emptySlot).insPeak = (0, 0) ∧
      ((doPluginRemove e k).plugins.getD i emptySlot).outsPeak = (0, 0)) := by
  obtain ⟨hlen, hle, hmax, hok⟩ := hInv
  have hcnt : (e.curPluginCount + (2 ^ 32 - 1)) % 2 ^ 32 = e.curPluginCount - 1 := by
    omega
  have hd : doPluginRemove e k =
      { e with
        curPluginCount := e.curPluginCount - 1,
        plugins := doPluginRemoveLoop
          (e.plugins.set k { e.plugins.getD k emptySlot with plugin := none })
          k (e.curPluginCount - 1 - k) } := by
    unfold doPluginRemove
    rw [hcnt]
  have hocc : ∀ j, k ≤ j → j < k + (e.curPluginCount - 1 - k) →
      (((e.plugins.set k { e.plugins.getD k emptySlot with plugin := none }).getD
        (j + 1) emptySlot).plugin).isSome = true := by
    intro j hj hj'
    rw [getD_set_ne _ _ _ (show k ≠ j + 1 by omega)]
    exact slotOk_isSome e.plugins (j + 1) (hok (j + 1) (by omega))
  have hlen0 : k + (e.curPluginCount - 1 - k) ≤
      (e.plugins.set k { e.plugins.getD k emptySlot with plugin := none }).length := by
    rw [List.length_set, hlen]; omega
  obtain ⟨Llen, Lfrozen, Lwin⟩ :=
    doPluginRemoveLoop_spec (e.curPluginCount - 1 - k)
      (e.plugins.set k { e.plugins.getD k emptySlot with plugin := none }) k hocc hlen0
  rw [hd]
  refine ⟨⟨?_, ?_, hmax, ?_⟩, rfl, ?_⟩
  · show (doPluginRemoveLoop _ k _).length = e.maxPluginNumber
    rw [Llen, List.length_set, hlen]
  · show e.curPluginCount - 1 ≤ e.maxPluginNumber
    omega
  · intro i hi
    have hi' : i < e.curPluginCount - 1 := hi
    show slotOk (doPluginRemoveLoop _ k _) i = true
    by_cases hik : i < k
    · unfold slotOk
      rw [Lfrozen i (Or.inl hik), getD_set_ne _ _ _ (show k ≠ i by omega)]
      have := hok i (by omega)
      unfold slotOk at this
      exact this
    · obtain ⟨p, hp, hpid⟩ := slotOk_some e.plugins (i + 1) (hok (i + 1) (by omega))
      unfold slotOk
      rw [Lwin i (by omega) (by omega), getD_set_ne _ _ _ (show k ≠ i + 1 by omega), hp]
      simp
  · intro i hik hilt
    refine ⟨?_, ?_, ?_⟩
    · show ((doPluginRemoveLoop _ k _).getD i emptySlot).plugin = _
      rw [Lwin i hik (by omega), getD_set_ne _ _ _ (show k ≠ i + 1 by omega)]
    · show ((doPluginRemoveLoop _ k _).getD i emptySlot).insPeak = (0, 0)
      rw [Lwin i hik (by omega)]
    · show ((doPluginRemoveLoop _ k _).getD i emptySlot).outsPeak = (0, 0)
      rw [Lwin i hik (by omega)]

theorem removePlugin_of_valid (e : CarlaEngine) (k : Nat)
    (hInv : PluginTableInv e) (hk : k < e.curPluginCount) :
    (removePlugin e k).2 = doPluginRemove e k := by
  obtain ⟨p, hp, _⟩ := slotOk_some e.plugins k (hInv.2.2.2 k hk)
  unfold removePlugin
  rw [hp]

theorem initEngine_inv (opts : EngineOptions) (etype : EngineType) :
    PluginTableInv (initEngine opts etype) := by
  unfold initEngine PluginTableInv
  cases opts.processMode <;>
    simp [slotOk, MAX_RACK_PLUGINS, MAX_PATCHBAY_PLUGINS, MAX_DEFAULT_PLUGINS]

theorem runOps_inv :
    ∀ (ops : List EngineOp) (e : CarlaEngine), PluginTableInv e →
      validOps e ops = true → PluginTableInv (runOps e ops) := by
  intro ops
  induction ops with
  | nil => intro e hInv _; exact hInv
  | cons op rest ih =>
    intro e hInv hv
    unfold validOps at hv
    obtain ⟨hv1, hv2⟩ := Bool.and_eq_true_iff.mp hv
    refine ih (applyOp e op) ?_ hv2
    cases op with
    | add btype ptype ctorOk uid pname en =>
      exact addPlugin_inv e btype ptype ctorOk uid pname en hInv
    | remove k =>
      have hk : k < e.curPluginCount := of_decide_eq_true hv1
      show PluginTableInv (removePlugin e k).2
      rw [removePlugin_of_valid e k hInv hk]
      exact (doPluginRemove_spec e k hInv hk).1


/-- C1: (1) for every operation sequence through the public API from an
initialized engine — each `remove` respecting the documented/asserted
precondition `id < cur_plugin_count` — the table invariant holds after every
operation: every slot below `curPluginCount` holds a plugin whose id equals its
index (dense occupied prefix); and (2) `removePlugin k` on a table satisfying
the invariant decrements the count and shifts each slot `i ∈ [k, old_count-1)`
down: slot `i` receives exactly the plugin previously at slot `i+1`, with its
id set to `i` and both peak pairs zeroed. -/
theorem pluginTable_dense_prefix_and_shift :
    (∀ (opts : EngineOptions) (etype : EngineType) (ops : List EngineOp),
      validOps (initEngine opts etype) ops = true →
      PluginTableInv (runOps (initEngine opts etype) ops)) ∧
    (∀ (e : CarlaEngine) (k : Nat), PluginTableInv e → k < e.curPluginCount →
      (removePlugin e k).2.curPluginCount = e.curPluginCount - 1 ∧
      ∀ i, k ≤ i → i + 1 < e.curPluginCount →
        (((removePlugin e k).2.plugins.getD i emptySlot).plugin
            = ((e.plugins.getD (i + 1) emptySlot).plugin).map
                (fun p => { p with pid := i })) ∧
        ((removePlugin e k).2.plugins.getD i emptySlot).insPeak = (0, 0) ∧
        ((removePlugin e k).2.plugins.getD i emptySlot).outsPeak = (0, 0)) := by
  constructor
  · intro opts etype ops hv
    exact runOps_inv ops (initEngine opts etype) (initEngine_inv opts etype) hv
  · intro e k hInv hk
    rw [removePlugin_of_valid e k hInv hk]
    obtain ⟨-, h2, h3⟩ := doPluginRemove_spec e k hInv hk
    exact ⟨h2, h3⟩

/-- C1 witness: three plugins added through the API, then `removePlugin 1`:
the sequence is valid, the invariant holds, the count drops to 2 and slot 1
receives the plugin previously at slot 2 with id 1. -/
theorem pluginTable_dense_prefix_and_shift_witness :
    validOps (initEngine rackOpts .jack)
      [.add .native .internal true 10 "a" true, .add .native .internal true 11 "b" true,
       .add .native .internal true 12 "c" true] = true ∧
    PluginTableInv (runOps (initEngine rackOpts .jack)
      [.add .native .internal true 10 "a" true, .add .native .internal true 11 "b" true,
       .add .native .internal true 12 "c" true]) ∧
    (removePlugin (runOps (initEngine rackOpts .jack)
      [.add .native .internal true 10 "a" true, .add .native .internal true 11 "b" true,
       .add .native .internal true 12 "c" true]) 1).2.curPluginCount = 2 ∧
    ((removePlugin (runOps (initEngine rackOpts .jack)
      [.add .native .internal true 10 "a" true, .add .native .internal true 11 "b" true,
       .add .native .internal true 12 "c" true]) 1).2.plugins.getD 1 emptySlot).plugin
        = (((runOps (initEngine rackOpts .jack)
            [.add .native .internal true 10 "a" true, .add .native .internal true 11 "b" true,
             .add .native .internal true 12 "c" true]).plugins.getD 2 emptySlot).plugin).map
            (fun p => { p with pid := 1 }) := by
  refine ⟨by decide, pluginTable_dense_prefix_and_shift.1 rackOpts .jack _ (by decide), ?_, ?_⟩
  · exact (pluginTable_dense_prefix_and_shift.2 _ 1 (by decide) (by decide)).1
  · exact ((pluginTable_dense_prefix_and_shift.2 _ 1 (by decide) (by decide)).2
      1 (Nat.le_refl 1) (by decide)).1

end Carla
